import Mathlib

/-!
Shallow embedding of the ReviewFriends analytics pipeline
(etl_reviewfriends.py and dash_dashboard.py).

Tables are lists of row structures.  Pandas NaN propagation on the partner
composite key is modelled with Option String: a null std_country yields a
null composite key.  Conversion composite keys are plain strings, because
the source coerces country_name with astype(str) before key construction,
so no null can appear on that side.
-/

/-- Removal of spaces and colons from a timestamp string, as done by
str.replace(' ', '').str.replace(':', '') in the source. -/
def cleanTs (s : String) : String :=
  String.mk (s.data.filter (fun ch => !(ch == ' ' || ch == ':')))

/-- One cleaned row of reviewfriends_conversions.csv, restricted to the
fields the verified claims use. -/
structure ConvRow where
  rid : Int
  session_id : String
  country_name : String
  measurement_category : String
  ui_element : String
  created_at : String
deriving DecidableEq

/-- One cleaned row of partner_data.csv, after the fuzzy-match pass that
adds std_country (None when no candidate clears the threshold). -/
structure PartnerRow where
  ip_country : String
  country_residency : String
  important_score : Int
  timestamp : String
  std_country : Option String
deriving DecidableEq

/-- Composite key of a conversion row: country_name + '_' + cleaned
timestamp.  country_name is a genuine string after astype(str), so the
key is always present. -/
def convKey (r : ConvRow) : String :=
  r.country_name ++ "_" ++ cleanTs r.created_at

/-- Composite key of a partner row: std_country + '_' + cleaned timestamp.
A null std_country propagates to a null key, as NaN + str = NaN in pandas. -/
def partnerKey (r : PartnerRow) : Option String :=
  r.std_country.map (fun c => c ++ "_" ++ cleanTs r.timestamp)

/-- Number of rows of a conversions table carrying a given composite key. -/
def countKeyC (t : List ConvRow) (k : String) : Nat :=
  (t.filter (fun r => convKey r = k)).length

/-- Number of rows of a partner table carrying a given non-null composite key. -/
def countKeyP (t : List PartnerRow) (k : String) : Nat :=
  (t.filter (fun r => partnerKey r = some k)).length

/-- Composite-key deduplication of the conversions table: value_counts
collects the keys occurring more than once, and rows whose key is in that
collection are dropped; a row survives exactly when its key count is at
most one. -/
def dedupConv (t : List ConvRow) : List ConvRow :=
  t.filter (fun r => countKeyC t (convKey r) ≤ 1)

/-- Composite-key deduplication of the partner table.  value_counts ignores
null keys, and isin on a null value is false, so rows with a null key are
always kept; rows with a non-null key are kept when the key count is at
most one. -/
def dedupPartner (t : List PartnerRow) : List PartnerRow :=
  t.filter (fun r =>
    match partnerKey r with
    | none => true
    | some k => countKeyP t k ≤ 1)

/-- Inner merge of the two tables on the composite key, one output row per
matching pair.  Conversion keys are never null, so the pandas behaviour of
joining NaN keys to NaN keys can produce no extra pairs here. -/
def composite_merge (conv : List ConvRow) (part : List PartnerRow) :
    List (ConvRow × PartnerRow) :=
  conv.flatMap (fun c =>
    (part.filter (fun p => partnerKey p = some (convKey c))).map (fun p => (c, p)))

/-- Composite key of a merged output row, the shared join key. -/
def mergeKey (q : ConvRow × PartnerRow) : String := convKey q.1

/-- Importance bucketing, from pd.cut with bins [0, 25, 50, 75, 100],
labels [Low, Medium, High, Very High] and include_lowest=True: intervals
[0,25], (25,50], (50,75], (75,100]; out-of-range scores produce NaN. -/
def importanceBucket (s : Int) : Option String :=
  if 0 ≤ s ∧ s ≤ 25 then some "Low"
  else if 25 < s ∧ s ≤ 50 then some "Medium"
  else if 50 < s ∧ s ≤ 75 then some "High"
  else if 75 < s ∧ s ≤ 100 then some "Very High"
  else none

/-- Cast of the bucket column to a plain string, astype(str): a NaN bucket
renders as the string nan. -/
def importanceStr (s : Int) : String :=
  match importanceBucket s with
  | some l => l
  | none => "nan"

/-- extractOne of the fuzzy matcher: the highest-scoring candidate of the
choices list, earliest candidate winning ties, together with its score. -/
def extractOne (scorer : String → String → Nat) (q : String) :
    List String → Option (String × Nat)
  | [] => none
  | c :: cs =>
    match extractOne scorer q cs with
    | none => some (c, scorer q c)
    | some (b, s) => if scorer q c ≥ s then some (c, scorer q c) else some (b, s)

/-- fuzzy_match from the source: take the best candidate and keep it only
when its score strictly exceeds the threshold, else None. -/
def fuzzy_match (scorer : String → String → Nat) (threshold : Nat)
    (q : String) (choices : List String) : Option String :=
  match extractOne scorer q choices with
  | none => none
  | some (m, s) => if s > threshold then some m else none

/-!
Dashboard model (dash_dashboard.py).  The unified table read from
onebigtable.csv is a list of URow; filter state is a record of the three
controls; each chart callback is a function of the table and its declared
inputs; the scorecards are computed from the unfiltered table alone.
-/

/-- One row of the unified table loaded by the dashboard. -/
structure URow where
  rid : Int
  session_id : String
  composite_key : String
  country_name : String
  is_mobile : String
  ui_element : String
  timestamp : String
  important_score : Int
deriving DecidableEq

/-- State of the three filter controls: the multi-select country dropdown
(whose value may be missing or an empty list), the date range, and the
device choice. -/
structure Filters where
  countries : Option (List String)
  start_date : String
  end_date : String
  device : String

/-- Country filtering shared by four callbacks: a missing or empty
selection is falsy in Python, so the whole table is used; otherwise rows
whose country_name is in the selection are kept. -/
def filterCountries : Option (List String) → List URow → List URow
  | none, df => df
  | some [], df => df
  | some sel, df => df.filter (fun r => sel.contains r.country_name)

/-- Number of distinct composite keys of a table, nunique of the column. -/
def total_conversions (df : List URow) : Nat :=
  ((df.map (fun r => r.composite_key)).dedup).length

/-- Number of distinct session ids of a table, nunique of the column. -/
def total_users (df : List URow) : Nat :=
  ((df.map (fun r => r.session_id)).dedup).length

/-- Conversion rate of the scorecard: (total_conversions / total_users) * 100. -/
def conversion_rate (df : List URow) : ℚ :=
  ((total_conversions df : ℚ) / (total_users df : ℚ)) * 100

/-- Rendering of a number to two decimal places, the .2f format spec. -/
def render2dp (q : ℚ) : ℚ :=
  ((round (q * 100) : ℤ) : ℚ) / 100

/-- Row counts per country, the value_counts of the country_name column:
one entry per distinct country with the number of rows carrying it. -/
def countryCounts (df : List URow) : List (String × Nat) :=
  ((df.map (fun r => r.country_name)).dedup).map
    (fun c => (c, (df.filter (fun r => r.country_name = c)).length))

/-- Insertion of a counted entry into a count-descending list. -/
def insertCount (x : String × Nat) : List (String × Nat) → List (String × Nat)
  | [] => [x]
  | y :: ys => if y.2 ≥ x.2 then y :: insertCount x ys else x :: y :: ys

/-- Sorting of counted entries by descending count, as value_counts orders
its result. -/
def sortCountsDesc : List (String × Nat) → List (String × Nat)
  | [] => []
  | x :: xs => insertCount x (sortCountsDesc xs)

/-- Country pie callback: filter by the country selection, take the top 10
countries by row count, and show each as a percentage of the filtered
table's distinct composite-key count. -/
def update_country_pie (sel : Option (List String)) (df : List URow) :
    List (String × ℚ) :=
  let fdf := filterCountries sel df
  let total := total_conversions fdf
  ((sortCountsDesc (countryCounts fdf)).take 10).map
    (fun e => (e.1, ((e.2 : ℚ) / (total : ℚ)) * 100))

/-- Device pie callback: filter by the device choice (All means no filter)
and count rows per is_mobile value. -/
def update_device_pie (device : String) (df : List URow) : List (String × Nat) :=
  let fdf := if device = "All" then df else df.filter (fun r => r.is_mobile = device)
  ((fdf.map (fun r => r.is_mobile)).dedup).map
    (fun v => (v, (fdf.filter (fun r => r.is_mobile = v)).length))

/-- Conversion trend callback: filter by the country selection, then keep
rows whose timestamp lies inside the inclusive date range. -/
def update_conversion_trend (sel : Option (List String)) (sd ed : String)
    (df : List URow) : List URow :=
  (filterCountries sel df).filter (fun r => sd ≤ r.timestamp ∧ r.timestamp ≤ ed)

/-- UI-element bar callback: filter by the country selection and take the
top 10 UI elements by row count. -/
def update_ui_element_bar (sel : Option (List String)) (df : List URow) :
    List (String × Nat) :=
  let fdf := filterCountries sel df
  (sortCountsDesc (((fdf.map (fun r => r.ui_element)).dedup).map
    (fun v => (v, (fdf.filter (fun r => r.ui_element = v)).length)))).take 10

/-- World bubble map callback: filter by the country selection and attach
to each row the count of rows sharing its id, the groupby transform. -/
def update_bubble_world_map (sel : Option (List String)) (df : List URow) :
    List (URow × Nat) :=
  let fdf := filterCountries sel df
  fdf.map (fun r => (r, (fdf.filter (fun q => q.rid = r.rid)).length))

/-- Rendered page: the three scorecard numbers and the five chart figures. -/
structure Page where
  cards : Nat × Nat × ℚ
  countryPie : List (String × ℚ)
  devicePie : List (String × Nat)
  trend : List URow
  uiBar : List (String × Nat)
  worldMap : List (URow × Nat)

/-- Full dashboard render: the scorecards are computed from the unfiltered
table alone, once, while each chart is a function of the table and its
declared filter inputs. -/
def renderPage (df : List URow) (f : Filters) : Page :=
  { cards := (total_conversions df, total_users df, render2dp (conversion_rate df))
    countryPie := update_country_pie f.countries df
    devicePie := update_device_pie f.device df
    trend := update_conversion_trend f.countries f.start_date f.end_date df
    uiBar := update_ui_element_bar f.countries df
    worldMap := update_bubble_world_map f.countries df }

/-- Component ids of the dcc.Graph panels declared in app.layout. -/
def chartPanelIds : List String :=
  ["country-pie-chart", "device-pie-chart", "ui-element-bar-chart",
   "conversion-trend-chart", "bubble-world-map"]

/-- The declared callback wiring: each entry is an output component id with
the list of input component properties driving it. -/
def callbackWiring : List (String × List String) :=
  [("country-pie-chart", ["country-dropdown.value"]),
   ("device-pie-chart", ["device-dropdown.value"]),
   ("conversion-trend-chart",
     ["country-dropdown.value", "date-picker.start_date", "date-picker.end_date"]),
   ("ui-element-bar-chart", ["country-dropdown.value"]),
   ("bubble-world-map", ["country-dropdown.value"])]

/-!
Load-step model (STEP 1 of the pipeline).  The three reads happen in
sequence inside one try block; the first failure jumps to the matching
except clause, which prints a diagnostic and falls through, never exiting.
-/

/-- Classification of a load failure, mirroring the three except clauses. -/
inductive LoadErr where
  | fileNotFound (msg : String)
  | emptyData (msg : String)
  | other (msg : String)
deriving DecidableEq

/-- Console diagnostic printed by the except clause handling an error. -/
def errMsg : LoadErr → String
  | .fileNotFound e => "Error: " ++ e ++ ". One or more files were not found."
  | .emptyData e => "Error: " ++ e ++ ". One or more files are empty."
  | .other e => "An unexpected error occurred: " ++ e

/-- Outcome of the load step: console output, the loaded tables when all
three reads succeeded, and whether the step terminated the process. -/
structure LoadOutcome (α β γ : Type) where
  console : List String
  tables : Option (α × β × γ)
  exited : Bool

/-- The load step: read partner data, then the mapping, then conversions;
on the first failure print the diagnostic of the matching except clause and
continue with nothing loaded; on success print the success line. -/
def loadStep {α β γ : Type} (p : Except LoadErr α) (m : Except LoadErr β)
    (c : Except LoadErr γ) : LoadOutcome α β γ :=
  match p with
  | .error e => { console := [errMsg e], tables := none, exited := false }
  | .ok pt =>
    match m with
    | .error e => { console := [errMsg e], tables := none, exited := false }
    | .ok mt =>
      match c with
      | .error e => { console := [errMsg e], tables := none, exited := false }
      | .ok ct =>
        { console := ["DataFrames loaded successfully."]
          tables := some (pt, mt, ct)
          exited := false }

/-- Truth of an Except value being a success. -/
def isOkE {ε α : Type} : Except ε α → Bool
  | .ok _ => true
  | .error _ => false

/-!
Concrete tables used to instantiate the general theorems below.
-/

/-- Concrete conversion row. -/
def wConvRow : ConvRow :=
  { rid := 1, session_id := "s1", country_name := "Germany",
    measurement_category := "signup page", ui_element := "button",
    created_at := "2021-01-01 00:00:00" }

/-- Concrete partner row whose composite key matches wConvRow. -/
def wPartnerRow : PartnerRow :=
  { ip_country := "DE", country_residency := "Germany", important_score := 10,
    timestamp := "2021-01-01 00:00:00", std_country := some "Germany" }

/-- Concrete one-row conversions table. -/
def wConv : List ConvRow := [wConvRow]

/-- Concrete one-row partner table. -/
def wPart : List PartnerRow := [wPartnerRow]

/-- Partner row whose fuzzy match failed, hence a null composite key. -/
def nullKeyRow1 : PartnerRow :=
  { ip_country := "zzzz", country_residency := "A", important_score := 1,
    timestamp := "2021-01-01 00:00:00", std_country := none }

/-- Second distinct partner row with a null composite key. -/
def nullKeyRow2 : PartnerRow :=
  { ip_country := "qqqq", country_residency := "B", important_score := 2,
    timestamp := "2021-01-02 00:00:00", std_country := none }

/-- Partner table holding two distinct rows that share the null key. -/
def nullKeyPart : List PartnerRow := [nullKeyRow1, nullKeyRow2]

/-- Concrete unified-table row. -/
def wURow1 : URow :=
  { rid := 1, session_id := "sa", composite_key := "Germany_2021",
    country_name := "Germany", is_mobile := "Mobile", ui_element := "button",
    timestamp := "2021-01-01", important_score := 10 }

/-- Second concrete unified-table row. -/
def wURow2 : URow :=
  { rid := 2, session_id := "sb", composite_key := "Canada_2021",
    country_name := "Canada", is_mobile := "Desktop", ui_element := "link",
    timestamp := "2021-02-01", important_score := 60 }

/-- Concrete unified table with distinct composite keys. -/
def wUTable : List URow := [wURow1, wURow2]

/-- Concrete filter state with no country selection. -/
def wFiltersA : Filters :=
  { countries := none, start_date := "2020-01-01", end_date := "2022-01-01",
    device := "All" }

/-- Concrete filter state with a country selected. -/
def wFiltersB : Filters :=
  { countries := some ["Germany"], start_date := "2021-01-01",
    end_date := "2021-12-31", device := "Mobile" }

/-- Concrete similarity scorer used to instantiate the fuzzy-match theorem. -/
def wScorer : String → String → Nat := fun _ c => 40 * c.length

/-- Concrete candidate vocabulary. -/
def wChoices : List String := ["ab", "abc"]

/-!
Helper lemmas about composite-key deduplication and the inner merge.
-/

theorem countKeyC_filter_le (t : List ConvRow) (p : ConvRow → Bool) (k : String) :
    countKeyC (t.filter p) k ≤ countKeyC t k :=
  ((List.filter_sublist t).filter _).length_le

theorem countKeyC_pos_of_mem {t : List ConvRow} {r : ConvRow} (h : r ∈ t) :
    1 ≤ countKeyC t (convKey r) :=
  List.length_pos.mpr (List.ne_nil_of_mem (List.mem_filter.mpr ⟨h, by simp⟩))

theorem mem_dedupConv {t : List ConvRow} {r : ConvRow} :
    r ∈ dedupConv t ↔ r ∈ t ∧ countKeyC t (convKey r) ≤ 1 := by
  simp [dedupConv, List.mem_filter]

theorem countKeyC_dedupConv {t : List ConvRow} {r : ConvRow} (h : r ∈ dedupConv t) :
    countKeyC (dedupConv t) (convKey r) = 1 := by
  have h1 := (mem_dedupConv.mp h).2
  have h2 : 1 ≤ countKeyC (dedupConv t) (convKey r) := countKeyC_pos_of_mem h
  have h3 : countKeyC (dedupConv t) (convKey r) ≤ countKeyC t (convKey r) :=
    countKeyC_filter_le t _ _
  omega

theorem countKeyP_filter_le (t : List PartnerRow) (p : PartnerRow → Bool) (k : String) :
    countKeyP (t.filter p) k ≤ countKeyP t k :=
  ((List.filter_sublist t).filter _).length_le

theorem mem_dedupPartner_none {t : List PartnerRow} {r : PartnerRow}
    (h : partnerKey r = none) : r ∈ dedupPartner t ↔ r ∈ t := by
  simp [dedupPartner, List.mem_filter, h]

theorem mem_dedupPartner_some {t : List PartnerRow} {r : PartnerRow} {k : String}
    (h : partnerKey r = some k) :
    r ∈ dedupPartner t ↔ r ∈ t ∧ countKeyP t k ≤ 1 := by
  simp [dedupPartner, List.mem_filter, h]

theorem countKeyP_pos_of_mem {t : List PartnerRow} {r : PartnerRow} {k : String}
    (hk : partnerKey r = some k) (h : r ∈ t) : 1 ≤ countKeyP t k :=
  List.length_pos.mpr (List.ne_nil_of_mem (List.mem_filter.mpr ⟨h, by simp [hk]⟩))

theorem countKeyP_dedupPartner {t : List PartnerRow} {r : PartnerRow} {k : String}
    (hm : r ∈ dedupPartner t) (hk : partnerKey r = some k) :
    countKeyP (dedupPartner t) k = 1 := by
  have h1 := ((mem_dedupPartner_some hk).mp hm).2
  have h2 : 1 ≤ countKeyP (dedupPartner t) k := countKeyP_pos_of_mem hk hm
  have h3 : countKeyP (dedupPartner t) k ≤ countKeyP t k := countKeyP_filter_le t _ k
  omega

theorem mem_composite_merge {conv : List ConvRow} {part : List PartnerRow}
    {q : ConvRow × PartnerRow} :
    q ∈ composite_merge conv part ↔
      q.1 ∈ conv ∧ q.2 ∈ part ∧ partnerKey q.2 = some (convKey q.1) := by
  obtain ⟨c, p⟩ := q
  simp only [composite_merge, List.mem_flatMap, List.mem_map, List.mem_filter,
    decide_eq_true_eq]
  constructor
  · rintro ⟨c', hc', p', ⟨hp', hkey⟩, heq⟩
    cases heq
    exact ⟨hc', hp', hkey⟩
  · rintro ⟨hc, hp, hkey⟩
    exact ⟨c, hc, p, ⟨hp, hkey⟩, rfl⟩

theorem filter_map_pair_length (c : ConvRow) (l : List PartnerRow) (k : String) :
    ((l.map (fun p => (c, p))).filter (fun q => convKey q.1 = k)).length
      = if convKey c = k then l.length else 0 := by
  induction l with
  | nil => simp
  | cons p t ih =>
    simp only [List.map_cons, List.filter_cons]
    by_cases h : convKey c = k <;> simp [h, ih]

theorem composite_merge_count (conv : List ConvRow) (part : List PartnerRow) (k : String) :
    ((composite_merge conv part).filter (fun q => convKey q.1 = k)).length
      = countKeyC conv k * countKeyP part k := by
  induction conv with
  | nil => simp [composite_merge, countKeyC]
  | cons c cs ih =>
    have step : composite_merge (c :: cs) part
        = ((part.filter (fun p => partnerKey p = some (convKey c))).map
            (fun p => (c, p))) ++ composite_merge cs part := by
      simp [composite_merge]
    rw [step, List.filter_append, List.length_append, ih, filter_map_pair_length]
    have hcc : countKeyC (c :: cs) k
        = (if convKey c = k then 1 else 0) + countKeyC cs k := by
      by_cases h : convKey c = k
      · simp [countKeyC, List.filter_cons, h]
        omega
      · simp [countKeyC, List.filter_cons, h]
    rw [hcc]
    by_cases h : convKey c = k
    · rw [if_pos h, if_pos h]
      rw [show (part.filter (fun p => partnerKey p = some (convKey c))).length
            = countKeyP part k by rw [h]; rfl]
      ring
    · rw [if_neg h, if_neg h]; ring

/-- C1: every composite key appearing in the inner-join output occurs
exactly once in the deduplicated conversions table and exactly once in the
deduplicated partner table, and the join never fans out: exactly one output
row carries that key. -/
theorem C1_join_no_fanout (conv : List ConvRow) (part : List PartnerRow)
    (q : ConvRow × PartnerRow)
    (hq : q ∈ composite_merge (dedupConv conv) (dedupPartner part)) :
    countKeyC (dedupConv conv) (mergeKey q) = 1 ∧
    countKeyP (dedupPartner part) (mergeKey q) = 1 ∧
    ((composite_merge (dedupConv conv) (dedupPartner part)).filter
      (fun q' => mergeKey q' = mergeKey q)).length = 1 := by
  obtain ⟨h1, h2, h3⟩ := mem_composite_merge.mp hq
  have hc : countKeyC (dedupConv conv) (convKey q.1) = 1 := countKeyC_dedupConv h1
  have hp : countKeyP (dedupPartner part) (convKey q.1) = 1 :=
    countKeyP_dedupPartner h2 h3
  refine ⟨hc, hp, ?_⟩
  show ((composite_merge (dedupConv conv) (dedupPartner part)).filter
      (fun q' => convKey q'.1 = convKey q.1)).length = 1
  rw [composite_merge_count, hc, hp]

/-- C1 witness: a concrete matching pair flows through dedup and merge,
and the general theorem applies to it. -/
theorem C1_join_no_fanout_witness :
    (wConvRow, wPartnerRow) ∈ composite_merge (dedupConv wConv) (dedupPartner wPart) ∧
    (countKeyC (dedupConv wConv) (mergeKey (wConvRow, wPartnerRow)) = 1 ∧
     countKeyP (dedupPartner wPart) (mergeKey (wConvRow, wPartnerRow)) = 1 ∧
     ((composite_merge (dedupConv wConv) (dedupPartner wPart)).filter
       (fun q' => mergeKey q' = mergeKey (wConvRow, wPartnerRow))).length = 1) :=
  ⟨by decide, C1_join_no_fanout wConv wPart (wConvRow, wPartnerRow) (by decide)⟩

/-- C2 counterexample: two distinct partner rows whose fuzzy match failed
share the null composite key; both survive the deduplication step, so the
surviving key value is not unique within the table. -/
theorem C2_counterexample :
    nullKeyRow1 ∈ dedupPartner nullKeyPart ∧
    ((dedupPartner nullKeyPart).filter
      (fun q => partnerKey q = partnerKey nullKeyRow1)).length = 2 := by decide

/-- C2 amended: after the composite-key deduplication step, every surviving
conversion row has a unique key within its table, and every surviving
partner row with a non-null key has a unique key within its table; rows
with a null key are exempt. -/
theorem C2_dedup_key_unique (conv : List ConvRow) (part : List PartnerRow) :
    (∀ r ∈ dedupConv conv, countKeyC (dedupConv conv) (convKey r) = 1) ∧
    (∀ r ∈ dedupPartner part, ∀ k, partnerKey r = some k →
      countKeyP (dedupPartner part) k = 1) :=
  ⟨fun _ hr => countKeyC_dedupConv hr,
   fun _ hr _ hk => countKeyP_dedupPartner hr hk⟩

/-- C2 witness: the amended theorem applied to concrete tables. -/
theorem C2_dedup_key_unique_witness :
    wConvRow ∈ dedupConv wConv ∧ countKeyC (dedupConv wConv) (convKey wConvRow) = 1 :=
  ⟨by decide, (C2_dedup_key_unique wConv nullKeyPart).1 wConvRow (by decide)⟩

/-- C9: a partner row without a standardized country gets a null composite
key, such rows always survive the deduplication step when present, and the
deduplication step leaves the multiset of null-key rows untouched, because
value counts ignore null keys. -/
theorem C9_null_keys_survive (part : List PartnerRow) (r : PartnerRow)
    (h : r.std_country = none) :
    partnerKey r = none ∧
    (r ∈ part → r ∈ dedupPartner part) ∧
    (dedupPartner part).filter (fun q => partnerKey q = none)
      = part.filter (fun q => partnerKey q = none) := by
  have hk : partnerKey r = none := by simp [partnerKey, h]
  refine ⟨hk, fun hm => (mem_dedupPartner_none hk).mpr hm, ?_⟩
  rw [dedupPartner, List.filter_filter]
  apply List.filter_congr
  intro a _
  cases ha : partnerKey a <;> simp [ha]

/-- C9 witness: the theorem applied to the concrete two-row table whose
rows both carry the null key. -/
theorem C9_null_keys_survive_witness :
    nullKeyRow1.std_country = none ∧
    (partnerKey nullKeyRow1 = none ∧
     (nullKeyRow1 ∈ nullKeyPart → nullKeyRow1 ∈ dedupPartner nullKeyPart) ∧
     (dedupPartner nullKeyPart).filter (fun q => partnerKey q = none)
       = nullKeyPart.filter (fun q => partnerKey q = none)) :=
  ⟨rfl, C9_null_keys_survive nullKeyPart nullKeyRow1 rfl⟩

/-- C3: the importance bucketing maps 0 and 25 to Low, 26 to Medium, 75 to
High and 100 to Very High, and the bucket column is rendered as a plain
string. -/
theorem C3_importance_bucketing :
    importanceStr 0 = "Low" ∧ importanceStr 25 = "Low" ∧
    importanceStr 26 = "Medium" ∧ importanceStr 75 = "High" ∧
    importanceStr 100 = "Very High" := by decide

theorem extractOne_spec (scorer : String → String → Nat) (q : String) :
    ∀ (choices : List String), choices ≠ [] →
      ∃ m s, extractOne scorer q choices = some (m, s) ∧ m ∈ choices ∧
        scorer q m = s ∧ ∀ c ∈ choices, scorer q c ≤ s := by
  intro choices
  induction choices with
  | nil => intro h; exact absurd rfl h
  | cons c cs ih =>
    intro _
    by_cases hcs : cs = []
    · subst hcs
      refine ⟨c, scorer q c, ?_, List.mem_singleton_self c, rfl, ?_⟩
      · simp [extractOne]
      · intro c' hc'
        rw [List.mem_singleton.mp hc']
    · obtain ⟨m, s, he, hm, hs, hmax⟩ := ih hcs
      by_cases hge : scorer q c ≥ s
      · refine ⟨c, scorer q c, ?_, List.mem_cons_self c cs, rfl, ?_⟩
        · simp [extractOne, he, hge]
        · intro c' hc'
          rcases List.mem_cons.mp hc' with h | h
          · subst h; exact le_refl _
          · exact le_trans (hmax c' h) hge
      · refine ⟨m, s, ?_, List.mem_cons_of_mem c hm, hs, ?_⟩
        · simp [extractOne, he, hge]
        · intro c' hc'
          rcases List.mem_cons.mp hc' with h | h
          · subst h; omega
          · exact hmax c' h

/-- C4: on a nonempty vocabulary, fuzzy_match returns the single best
scoring candidate exactly when its score strictly exceeds the threshold: a
best score of 100 clears both thresholds used by the pipeline, 80 and 85,
while a score exactly at the threshold is rejected. -/
theorem C4_fuzzy_match_threshold (scorer : String → String → Nat) (q : String)
    (choices : List String) (h : choices ≠ []) :
    ∃ m s, extractOne scorer q choices = some (m, s) ∧ m ∈ choices ∧
      scorer q m = s ∧ (∀ c ∈ choices, scorer q c ≤ s) ∧
      (∀ t, fuzzy_match scorer t q choices = if t < s then some m else none) ∧
      (s = 100 → fuzzy_match scorer 80 q choices = some m ∧
        fuzzy_match scorer 85 q choices = some m) ∧
      fuzzy_match scorer s q choices = none := by
  obtain ⟨m, s, he, hm, hs, hmax⟩ := extractOne_spec scorer q choices h
  have hgen : ∀ t, fuzzy_match scorer t q choices = if t < s then some m else none := by
    intro t
    simp only [fuzzy_match, he, gt_iff_lt]
  refine ⟨m, s, he, hm, hs, hmax, hgen, ?_, ?_⟩
  · intro h100
    subst h100
    rw [hgen 80, hgen 85]
    norm_num
  · rw [hgen s]
    simp

/-- C4 witness: the theorem applied to a concrete scorer and vocabulary. -/
theorem C4_fuzzy_match_threshold_witness :
    wChoices ≠ [] ∧
    (∃ m s, extractOne wScorer "x" wChoices = some (m, s) ∧ m ∈ wChoices ∧
      wScorer "x" m = s ∧ (∀ c ∈ wChoices, wScorer "x" c ≤ s) ∧
      (∀ t, fuzzy_match wScorer t "x" wChoices = if t < s then some m else none) ∧
      (s = 100 → fuzzy_match wScorer 80 "x" wChoices = some m ∧
        fuzzy_match wScorer 85 "x" wChoices = some m) ∧
      fuzzy_match wScorer s "x" wChoices = none) :=
  ⟨by decide, C4_fuzzy_match_threshold wScorer "x" wChoices (by decide)⟩

/-- C7: the load step never terminates the process: whatever the outcome of
the three reads, it reports exactly one console line, the first failing
read is caught and reported with the diagnostic of its except clause, and
the tables are handed on exactly when all three reads succeed. -/
theorem C7_load_errors_nonfatal {α β γ : Type} (p : Except LoadErr α)
    (m : Except LoadErr β) (c : Except LoadErr γ) :
    (loadStep p m c).exited = false ∧
    (loadStep p m c).console.length = 1 ∧
    ((loadStep p m c).tables.isSome = (isOkE p && isOkE m && isOkE c)) ∧
    (∀ e, p = Except.error e → (loadStep p m c).console = [errMsg e]) ∧
    (∀ e a, p = Except.ok a → m = Except.error e →
      (loadStep p m c).console = [errMsg e]) ∧
    (∀ e a b, p = Except.ok a → m = Except.ok b → c = Except.error e →
      (loadStep p m c).console = [errMsg e]) := by
  rcases p with e | pt <;> rcases m with e' | mt <;> rcases c with e'' | ct <;>
    simp [loadStep, isOkE]

/-- C7 witness: a missing partner file is caught and reported while the
step continues. -/
theorem C7_load_errors_nonfatal_witness :
    (loadStep (Except.error (LoadErr.fileNotFound "boom") : Except LoadErr Nat)
      (Except.ok 0 : Except LoadErr Nat) (Except.ok 0 : Except LoadErr Nat)).console
      = [errMsg (LoadErr.fileNotFound "boom")] :=
  (C7_load_errors_nonfatal _ _ _).2.2.2.1 (LoadErr.fileNotFound "boom") rfl

/-- C8 counterexample: the dashboard layout declares five chart panels, not
six. -/
theorem C8_counterexample : ¬ chartPanelIds.length = 6 := by decide

/-- C8 amended: the dashboard renders five chart panels, each the output of
exactly one declared callback driven by its declared filter inputs, so each
panel is recomputed independently when its inputs change. -/
theorem C8_five_reactive_panels :
    chartPanelIds.length = 5 ∧
    callbackWiring.length = 5 ∧
    (chartPanelIds.all
      (fun pid => (callbackWiring.filter (fun e => e.1 = pid)).length = 1)) = true ∧
    (callbackWiring.map (fun e => e.1)).Nodup := by decide

theorem filterCountries_all (df : List URow) :
    filterCountries (some ((df.map (fun r => r.country_name)).dedup)) df = df := by
  cases h : (df.map (fun r => r.country_name)).dedup with
  | nil =>
    have h0 : df = [] := by
      simpa using (List.dedup_eq_nil _).mp h
    subst h0; rfl
  | cons a as =>
    show df.filter (fun r => (a :: as).contains r.country_name) = df
    apply List.filter_eq_self.mpr
    intro r hr
    have hmem : r.country_name ∈ (df.map (fun r => r.country_name)).dedup :=
      List.mem_dedup.mpr (List.mem_map_of_mem _ hr)
    rw [h] at hmem
    simpa using hmem

/-- C10: an empty or missing country selection makes every country-driven
callback operate on the entire unfiltered table, which coincides with
selecting every country present in the table. -/
theorem C10_empty_country_selection (df : List URow) (sd ed : String) :
    filterCountries none df = df ∧
    filterCountries (some []) df = df ∧
    filterCountries (some ((df.map (fun r => r.country_name)).dedup)) df = df ∧
    update_country_pie none df
      = update_country_pie (some ((df.map (fun r => r.country_name)).dedup)) df ∧
    update_conversion_trend none sd ed df
      = update_conversion_trend
          (some ((df.map (fun r => r.country_name)).dedup)) sd ed df ∧
    update_ui_element_bar none df
      = update_ui_element_bar (some ((df.map (fun r => r.country_name)).dedup)) df ∧
    update_bubble_world_map none df
      = update_bubble_world_map (some ((df.map (fun r => r.country_name)).dedup)) df := by
  have hall := filterCountries_all df
  have hnone : filterCountries none df = df := rfl
  refine ⟨rfl, rfl, hall, ?_, ?_, ?_, ?_⟩ <;>
    simp only [update_country_pie, update_conversion_trend, update_ui_element_bar,
      update_bubble_world_map, hall, hnone]

/-- C5: for any filter states, the three scorecards of the rendered page
are identical, so they never react to filter changes, and they display the
distinct composite-key count, the distinct session-id count, and the rate
100 * N / M rendered to two decimal places, all computed from the
unfiltered table. -/
theorem C5_scorecards_static (df : List URow) (f f' : Filters)
    (h : 0 < total_users df) :
    (renderPage df f).cards = (renderPage df f').cards ∧
    (renderPage df f).cards =
      (((df.map (fun r => r.composite_key)).dedup).length,
       ((df.map (fun r => r.session_id)).dedup).length,
       render2dp (100 * (((df.map (fun r => r.composite_key)).dedup).length : ℚ)
         / (((df.map (fun r => r.session_id)).dedup).length : ℚ))) := by
  have harg : conversion_rate df
      = 100 * (total_conversions df : ℚ) / (total_users df : ℚ) := by
    unfold conversion_rate
    rw [div_mul_eq_mul_div, mul_comm]
  refine ⟨rfl, ?_⟩
  show (total_conversions df, total_users df, render2dp (conversion_rate df))
      = (total_conversions df, total_users df,
          render2dp (100 * (total_conversions df : ℚ) / (total_users df : ℚ)))
  rw [harg]

/-- C5 witness: the theorem applied to a concrete table and two distinct
filter states. -/
theorem C5_scorecards_static_witness :
    0 < total_users wUTable ∧
    ((renderPage wUTable wFiltersA).cards = (renderPage wUTable wFiltersB).cards ∧
     (renderPage wUTable wFiltersA).cards =
       (((wUTable.map (fun r => r.composite_key)).dedup).length,
        ((wUTable.map (fun r => r.session_id)).dedup).length,
        render2dp (100 * (((wUTable.map (fun r => r.composite_key)).dedup).length : ℚ)
          / (((wUTable.map (fun r => r.session_id)).dedup).length : ℚ)))) :=
  ⟨by decide, C5_scorecards_static wUTable wFiltersA wFiltersB (by decide)⟩

theorem count_country (df : List URow) (c : String) :
    (df.filter (fun r => r.country_name = c)).length
      = (df.map (fun r => r.country_name)).count c := by
  induction df with
  | nil => rfl
  | cons r t ih =>
    by_cases h : r.country_name = c <;>
      simp [List.filter_cons, List.count_cons, h, ih]

theorem countryCounts_snd_sum (df : List URow) :
    ((countryCounts df).map (fun e => e.2)).sum = df.length := by
  have h1 : (countryCounts df).map (fun e => e.2)
      = ((df.map (fun r => r.country_name)).dedup).map
          (fun c => (df.map (fun r => r.country_name)).count c) := by
    rw [countryCounts, List.map_map]
    apply List.map_congr_left
    intro c _
    simp [Function.comp, count_country]
  rw [h1, List.sum_map_count_dedup_eq_length, List.length_map]

theorem countryCounts_snd_pos {df : List URow} {e : String × Nat}
    (h : e ∈ countryCounts df) : 1 ≤ e.2 := by
  obtain ⟨c, hc, rfl⟩ := List.mem_map.mp h
  have hcm : c ∈ df.map (fun r => r.country_name) := List.mem_dedup.mp hc
  obtain ⟨r, hr, rfl⟩ := List.mem_map.mp hcm
  exact List.length_pos.mpr
    (List.ne_nil_of_mem (List.mem_filter.mpr ⟨hr, by simp⟩))

theorem insertCount_perm (x : String × Nat) (l : List (String × Nat)) :
    (insertCount x l).Perm (x :: l) := by
  induction l with
  | nil => exact List.Perm.refl _
  | cons y ys ih =>
    simp only [insertCount]
    split
    · exact (ih.cons y).trans (List.Perm.swap x y ys)
    · exact List.Perm.refl _

theorem sortCountsDesc_perm (l : List (String × Nat)) : (sortCountsDesc l).Perm l := by
  induction l with
  | nil => exact List.Perm.refl _
  | cons x xs ih => exact (insertCount_perm x (sortCountsDesc xs)).trans (ih.cons x)

theorem sum_take_add_drop (l : List Nat) (n : Nat) :
    (l.take n).sum + (l.drop n).sum = l.sum := by
  conv_rhs => rw [← List.take_append_drop n l]
  rw [List.sum_append]

theorem sum_map_div (l : List (String × Nat)) (T : ℚ) :
    (l.map (fun e => ((e.2 : ℚ) / T) * 100)).sum
      = ((((l.map (fun e => e.2)).sum : ℕ) : ℚ) / T) * 100 := by
  induction l with
  | nil => simp
  | cons x xs ih =>
    simp only [List.map_cons, List.sum_cons, ih]
    push_cast
    ring

theorem pie_core (g : List URow)
    (hnd : (g.map (fun r => r.composite_key)).Nodup) (hne : g ≠ []) :
    ((((sortCountsDesc (countryCounts g)).take 10).map
        (fun e => ((e.2 : ℚ) / (total_conversions g : ℚ)) * 100)).sum ≤ 100) ∧
    (10 < (countryCounts g).length →
      (((sortCountsDesc (countryCounts g)).take 10).map
        (fun e => ((e.2 : ℚ) / (total_conversions g : ℚ)) * 100)).sum < 100) := by
  have htot : total_conversions g = g.length := by
    unfold total_conversions
    rw [List.dedup_eq_self.mpr hnd, List.length_map]
  have hT : 0 < g.length := List.length_pos.mpr hne
  have hTQ : (0 : ℚ) < (g.length : ℚ) := by exact_mod_cast hT
  have hperm : (sortCountsDesc (countryCounts g)).Perm (countryCounts g) :=
    sortCountsDesc_perm _
  set l : List ℕ := (sortCountsDesc (countryCounts g)).map (fun e => e.2) with hl
  have hsum : l.sum = g.length := by
    rw [hl, (hperm.map (fun e => e.2)).sum_eq, countryCounts_snd_sum]
  have hmapsum : (((sortCountsDesc (countryCounts g)).take 10).map
      (fun e => ((e.2 : ℚ) / (total_conversions g : ℚ)) * 100)).sum
      = (((l.take 10).sum : ℕ) : ℚ) / (g.length : ℚ) * 100 := by
    rw [sum_map_div, htot, hl, List.map_take]
  have htake : (l.take 10).sum + (l.drop 10).sum = l.sum := sum_take_add_drop l 10
  constructor
  · rw [hmapsum]
    have hle : (l.take 10).sum ≤ g.length := by omega
    have h1 : (((l.take 10).sum : ℕ) : ℚ) / (g.length : ℚ) ≤ 1 :=
      (div_le_one hTQ).mpr (by exact_mod_cast hle)
    calc (((l.take 10).sum : ℕ) : ℚ) / (g.length : ℚ) * 100
        ≤ 1 * 100 := mul_le_mul_of_nonneg_right h1 (by norm_num)
      _ = 100 := one_mul _
  · intro hmany
    have hlen10 : 10 < l.length := by
      rw [hl, List.length_map, hperm.length_eq]
      exact hmany
    have hdropne : l.drop 10 ≠ [] := by
      intro hnil
      have := List.drop_eq_nil_iff.mp hnil
      omega
    have hdroppos : 1 ≤ (l.drop 10).sum := by
      cases hd : l.drop 10 with
      | nil => exact absurd hd hdropne
      | cons a rest =>
        have ha : a ∈ l := List.mem_of_mem_drop (hd ▸ List.mem_cons_self a rest)
        rw [hl] at ha
        obtain ⟨e, he, rfl⟩ := List.mem_map.mp ha
        have := countryCounts_snd_pos (hperm.subset he)
        simp only [List.sum_cons]
        omega
    have hlt : (l.take 10).sum < g.length := by omega
    rw [hmapsum]
    have h1 : (((l.take 10).sum : ℕ) : ℚ) / (g.length : ℚ) < 1 :=
      (div_lt_one hTQ).mpr (by exact_mod_cast hlt)
    calc (((l.take 10).sum : ℕ) : ℚ) / (g.length : ℚ) * 100
        < 1 * 100 := by
          apply mul_lt_mul_of_pos_right h1
          norm_num
      _ = 100 := one_mul _

/-- C6: for every country selection, on a filtered table whose composite
keys are distinct per row, the pie shows at most 10 countries, the
displayed percentages of the filtered distinct composite-key count sum to
at most 100, and strictly less than 100 when more than 10 countries are
present among the filtered rows. -/
theorem C6_pie_percentages (sel : Option (List String)) (df : List URow)
    (hnd : ((filterCountries sel df).map (fun r => r.composite_key)).Nodup)
    (hne : filterCountries sel df ≠ []) :
    (update_country_pie sel df).length ≤ 10 ∧
    ((update_country_pie sel df).map (fun e => e.2)).sum ≤ 100 ∧
    (10 < (countryCounts (filterCountries sel df)).length →
      ((update_country_pie sel df).map (fun e => e.2)).sum < 100) := by
  have hcore := pie_core (filterCountries sel df) hnd hne
  have hsnd : (update_country_pie sel df).map (fun e => e.2)
      = ((sortCountsDesc (countryCounts (filterCountries sel df))).take 10).map
          (fun e => ((e.2 : ℚ)
            / (total_conversions (filterCountries sel df) : ℚ)) * 100) := by
    simp only [update_country_pie, List.map_map, List.map_take]
    congr 1
  refine ⟨?_, ?_, ?_⟩
  · simp only [update_country_pie]
    rw [List.length_map, List.length_take]
    exact Nat.min_le_left _ _
  · rw [hsnd]; exact hcore.1
  · intro h; rw [hsnd]; exact hcore.2 h

/-- C6 witness: the theorem applied to a concrete table with distinct
composite keys and no country selection. -/
theorem C6_pie_percentages_witness :
    ((filterCountries none wUTable).map (fun r => r.composite_key)).Nodup ∧
    filterCountries none wUTable ≠ [] ∧
    ((update_country_pie none wUTable).length ≤ 10 ∧
     ((update_country_pie none wUTable).map (fun e => e.2)).sum ≤ 100 ∧
     (10 < (countryCounts (filterCountries none wUTable)).length →
       ((update_country_pie none wUTable).map (fun e => e.2)).sum < 100)) :=
  ⟨by decide, by decide, C6_pie_percentages none wUTable (by decide) (by decide)⟩
